import Mathlib

/-!
Verification of the last-mile route optimizer.

The source program builds a haversine distance matrix (meters, truncated to
integer) from stop coordinates, derives a travel-time matrix (minutes,
truncated), wires demands, vehicle capacities and hard-coded time windows
into a routing model, solves it with an external constraint solver, and
extracts one route per vehicle from the returned assignment.

The pure parts (haversine, matrix construction, demands, the time-window
list, the route-extraction loop) are embedded directly from the source.
The external solver is modelled abstractly: a produced solution is any
assignment satisfying the constraints the source wires into the model
(capacity dimension with slack 0 and start cumul 0, time dimension with
waiting slack 30 and horizon 600, per-node window ranges, every node
visited since the model registers no disjunctions).
-/

namespace RouteOpt

/-- Embedding of math.radians: degrees to radians. -/
noncomputable def radians (x : ℝ) : ℝ := x * (Real.pi / 180)

/-- Embedding of math.atan2 over the reals (quadrant-correct arctangent). -/
noncomputable def atan2 (y x : ℝ) : ℝ :=
  if 0 < x then Real.arctan (y / x)
  else if x < 0 ∧ 0 ≤ y then Real.arctan (y / x) + Real.pi
  else if x < 0 ∧ y < 0 then Real.arctan (y / x) - Real.pi
  else if x = 0 ∧ 0 < y then Real.pi / 2
  else if x = 0 ∧ y < 0 then -(Real.pi / 2)
  else 0

/-- Embedding of haversine (source lines 10-18): great-circle distance in
kilometres with Earth radius 6371 km. -/
noncomputable def haversine (lat1 lon1 lat2 lon2 : ℝ) : ℝ :=
  let R : ℝ := 6371
  let dlat := radians (lat2 - lat1)
  let dlon := radians (lon2 - lon1)
  let a := Real.sin (dlat / 2) ^ 2 +
    Real.cos (radians lat1) * Real.cos (radians lat2) * Real.sin (dlon / 2) ^ 2
  let c := 2 * atan2 (Real.sqrt a) (Real.sqrt (1 - a))
  R * c

/-- Truncation toward zero, the effect of numpy astype(int) on a real value. -/
noncomputable def rtrunc (x : ℝ) : ℤ := if 0 ≤ x then ⌊x⌋ else ⌈x⌉

/-- Embedding of the distance-matrix construction (source lines 35-41):
entry (i, j) is haversine of the two coordinate pairs times 1000 (meters),
the whole matrix then truncated entrywise by astype(int). -/
noncomputable def dist_matrix (coords : List (ℝ × ℝ)) : List (List ℤ) :=
  coords.map (fun ci => coords.map (fun cj =>
    rtrunc (haversine ci.1 ci.2 cj.1 cj.2 * 1000)))

/-- Entry accessor for the distance matrix. -/
noncomputable def distEntry (coords : List (ℝ × ℝ)) (i j : ℕ) : ℤ :=
  ((dist_matrix coords).getD i []).getD j 0

/-- Fleet size (source line 47). -/
def num_vehicles : ℕ := 3

/-- Vehicle capacity (source line 48). -/
def vehicle_capacity : ℤ := 3

/-- Constant cruising speed in km/h (source line 49). -/
def speed : ℤ := 40

/-- Embedding of the travel-time matrix (source lines 55-56):
(dist_matrix / 1000) / speed * 60, truncated entrywise by astype(int). -/
noncomputable def time_matrix (coords : List (ℝ × ℝ)) : List (List ℤ) :=
  (dist_matrix coords).map (fun row => row.map (fun d : ℤ =>
    rtrunc ((d : ℝ) / 1000 / (speed : ℝ) * 60)))

/-- Entry accessor for the time matrix. -/
noncomputable def timeEntry (coords : List (ℝ × ℝ)) (i j : ℕ) : ℤ :=
  ((time_matrix coords).getD i []).getD j 0

/-- Embedding of the demand list (source line 62): [0] + [1]*(n-1).
Demands depend only on the number of stops, never on data columns. -/
def demands_list (n : ℕ) : List ℤ := 0 :: List.replicate (n - 1) 1

/-- Demand of stop i, read from the demand list. -/
def demandOf (n : ℕ) (i : ℕ) : ℤ := (demands_list n).getD i 0

/-- Embedding of the hard-coded time-window list (source lines 70-78). -/
def time_windows : List (ℤ × ℤ) :=
  [(0, 600), (0, 200), (50, 300), (100, 400), (200, 500), (150, 450), (250, 600)]

/-- Node indices the time-window wiring loop (source lines 139-141) passes
to NodeToIndex: the loop enumerates the fixed window list, so it references
node i for every position i of that list, whatever the input size is. -/
def wiredNodes : List ℕ := List.range time_windows.length

/-- Abstraction of the solver assignment and index manager used by the
route-extraction loop: IsEnd, IndexToNode, the chosen value of NextVar at
each index, and the Start index of each vehicle. -/
structure RoutingSol where
  isEnd : ℕ → Bool
  indexToNode : ℕ → ℕ
  nextIndex : ℕ → ℕ
  start : ℕ → ℕ

/-- Embedding of the while-loop of the route extraction (source lines
165-179): collect IndexToNode of each index until IsEnd holds, following
the next pointers; fuel bounds the iteration. -/
def routeLoop (s : RoutingSol) : ℕ → ℕ → List ℕ
  | 0, _ => []
  | fuel + 1, idx =>
    if s.isEnd idx then [] else s.indexToNode idx :: routeLoop s fuel (s.nextIndex idx)

/-- Embedding of one vehicle's route extraction (source lines 159-182):
the nodes visited from the vehicle's Start index, with depot 0 appended
after the loop (source line 181). -/
def extractRoute (s : RoutingSol) (fuel : ℕ) (v : ℕ) : List ℕ :=
  routeLoop s fuel (s.start v) ++ [0]

/-- Load carried after the first k stops of a route: the sum of the
demands of the stops in the length-k prefix. -/
def prefixLoad (demand : ℕ → ℤ) (route : List ℕ) (k : ℕ) : ℤ :=
  ((route.take k).map demand).sum

/-- Solver contract for the capacity dimension wired in source lines
103-114: the demand callback is the transit, slack is 0, start cumul is
fixed to 0 and every cumul variable lies in [0, cap] (the per-vehicle
capacity). A produced route satisfies this for some cumul assignment. -/
def CapacityOK (demand : ℕ → ℤ) (cap : ℤ) (route : List ℕ) : Prop :=
  ∃ cumul : ℕ → ℤ, cumul 0 = 0 ∧
    (∀ k, k < route.length → cumul (k + 1) = cumul k + demand (route.getD k 0)) ∧
    (∀ k, k ≤ route.length → 0 ≤ cumul k ∧ cumul k ≤ cap)

/-- Error taxonomy the specification prescribes for input validation. The
source program defines no such error and performs no validation; the front
end below is the faithful embedding of its load-and-build stage. -/
inductive LoadError where
  | invalidInput
deriving DecidableEq

/-- Embedding of the front end of the program (source lines 24-62): take
the loaded coordinates and build the distance matrix, the time matrix and
the demand list. The source contains no validation and no error path
between loading and the solver wiring, so a result is always produced; the
Except wrapper exists only so that claims about failure can be stated. -/
noncomputable def front_end (coords : List (ℝ × ℝ)) :
    Except LoadError (List (List ℤ) × List (List ℤ) × List ℤ) :=
  Except.ok (dist_matrix coords, time_matrix coords, demands_list coords.length)

/-- Consecutive-arc propagation of the time dimension wired in source
lines 120-135: transit is the time matrix and slack (waiting) is at most
30, so the cumul of the next visit lies between cumul plus transit and
cumul plus transit plus 30. -/
def timeChain (time : ℕ → ℕ → ℤ) : List ℕ → List ℤ → Prop
  | u :: v :: rs, a :: b :: bs =>
    a + time u v ≤ b ∧ b ≤ a + time u v + 30 ∧ timeChain time (v :: rs) (b :: bs)
  | _, _ => True

/-- A route together with its per-visit arrival times satisfies the wired
time dimension: arrivals stay inside the 0..600 horizon (dimension
capacity, source line 132), each visit of a node below 7 stays inside that
node's hard-coded window (the wiring loop of source lines 139-141), and
consecutive visits respect the transit and slack propagation. -/
def RouteTimeOK (time : ℕ → ℕ → ℤ) (route : List ℕ) (arr : List ℤ) : Prop :=
  arr.length = route.length ∧
  timeChain time route arr ∧
  (∀ a ∈ arr, 0 ≤ a ∧ a ≤ 600) ∧
  (∀ k, k < route.length → route.getD k 0 < 7 →
    (time_windows.getD (route.getD k 0) (0, 0)).1 ≤ arr.getD k 0 ∧
    arr.getD k 0 ≤ (time_windows.getD (route.getD k 0) (0, 0)).2)

/-- A solution of the model wired by the source: one route per vehicle
with its arrival times, every route starting and ending at the depot,
every non-depot stop visited somewhere (the source registers no
disjunctions, so the solver may not drop any node), and every route
satisfying the capacity and time dimensions. The external solver returns
exactly such an assignment when one exists and nothing otherwise. -/
structure FeasibleSolution (n : ℕ) (time : ℕ → ℕ → ℤ) where
  routes : List (List ℕ)
  arrivals : List (List ℤ)
  nroutes : routes.length = num_vehicles
  depotEnds : ∀ r ∈ routes, r.head? = some 0 ∧ r.getLast? = some 0
  cover : ∀ s, 1 ≤ s → s < n → ∃ r ∈ routes, s ∈ r
  capOK : ∀ r ∈ routes, CapacityOK (demandOf n) vehicle_capacity r
  timeOK : ∀ k, k < routes.length →
    RouteTimeOK time (routes.getD k []) (arrivals.getD k [])

/-- Concrete travel-time matrix for the refutation instance: reaching stop
1 takes 1000 minutes from everywhere, every other arc takes 1. -/
def badTime : ℕ → ℕ → ℤ := fun _ v => if v = 1 then 1000 else 1

/-- Helper: the argument of the square roots in haversine. -/
noncomputable def havA (lat1 lon1 lat2 lon2 : ℝ) : ℝ :=
  Real.sin (radians (lat2 - lat1) / 2) ^ 2 +
    Real.cos (radians lat1) * Real.cos (radians lat2) *
      Real.sin (radians (lon2 - lon1) / 2) ^ 2

theorem haversine_eq_havA (lat1 lon1 lat2 lon2 : ℝ) :
    haversine lat1 lon1 lat2 lon2 =
      6371 * (2 * atan2 (Real.sqrt (havA lat1 lon1 lat2 lon2))
        (Real.sqrt (1 - havA lat1 lon1 lat2 lon2))) := rfl

theorem arctan_nonneg_of_nonneg {x : ℝ} (h : 0 ≤ x) : 0 ≤ Real.arctan x := by
  have := Real.arctan_strictMono.monotone h
  rwa [Real.arctan_zero] at this

theorem atan2_nonneg {y x : ℝ} (hy : 0 ≤ y) : 0 ≤ atan2 y x := by
  unfold atan2
  split_ifs with h1 h2 h3 h4 h5
  · exact arctan_nonneg_of_nonneg (div_nonneg hy (le_of_lt h1))
  · have hπ : Real.arctan (y / x) + Real.pi > -(Real.pi / 2) + Real.pi :=
      add_lt_add_right (Real.neg_pi_div_two_lt_arctan (y / x)) _
    have : -(Real.pi / 2) + Real.pi = Real.pi / 2 := by ring
    rw [this] at hπ
    exact le_of_lt (lt_trans (half_pos Real.pi_pos) hπ)
  · exact absurd h3.2 (not_lt.mpr hy)
  · exact le_of_lt (half_pos Real.pi_pos)
  · exact absurd h5.2 (not_lt.mpr hy)
  · exact le_refl 0

theorem haversine_nonneg (lat1 lon1 lat2 lon2 : ℝ) :
    0 ≤ haversine lat1 lon1 lat2 lon2 := by
  rw [haversine_eq_havA]
  have h := atan2_nonneg (x := Real.sqrt (1 - havA lat1 lon1 lat2 lon2))
    (Real.sqrt_nonneg (havA lat1 lon1 lat2 lon2))
  positivity

theorem rtrunc_of_nonneg {x : ℝ} (h : 0 ≤ x) : rtrunc x = ⌊x⌋ := by
  simp [rtrunc, h]

theorem rtrunc_nonneg {x : ℝ} (h : 0 ≤ x) : 0 ≤ rtrunc x := by
  rw [rtrunc_of_nonneg h]
  exact Int.le_floor.mpr (by exact_mod_cast h)

theorem rtrunc_le {x : ℝ} (h : 0 ≤ x) : (rtrunc x : ℝ) ≤ x := by
  rw [rtrunc_of_nonneg h]
  exact Int.floor_le x

theorem getD_map_of_lt {α : Type u} {β : Type v} (f : α → β) (l : List α)
    (j : ℕ) (d : β) (d2 : α) (hj : j < l.length) :
    (l.map f).getD j d = f (l.getD j d2) := by
  rw [List.getD_eq_getElem _ _ (by simpa using hj),
    List.getD_eq_getElem _ _ hj, List.getElem_map]

theorem sin_sq_radians_swap (u v : ℝ) :
    Real.sin (radians (u - v) / 2) ^ 2 = Real.sin (radians (v - u) / 2) ^ 2 := by
  have h : radians (u - v) = -(radians (v - u)) := by unfold radians; ring
  rw [h, neg_div, Real.sin_neg, neg_sq]

theorem haversine_symm (lat1 lon1 lat2 lon2 : ℝ) :
    haversine lat1 lon1 lat2 lon2 = haversine lat2 lon2 lat1 lon1 := by
  rw [haversine_eq_havA, haversine_eq_havA]
  have h : havA lat1 lon1 lat2 lon2 = havA lat2 lon2 lat1 lon1 := by
    unfold havA
    rw [sin_sq_radians_swap lat2 lat1, sin_sq_radians_swap lon2 lon1]
    ring
  rw [h]

theorem haversine_self (lat lon : ℝ) : haversine lat lon lat lon = 0 := by
  rw [haversine_eq_havA]
  have h0 : havA lat lon lat lon = 0 := by
    unfold havA radians
    simp
  rw [h0, Real.sqrt_zero, sub_zero, Real.sqrt_one]
  unfold atan2
  rw [if_pos (by norm_num : (0:ℝ) < 1)]
  simp [Real.arctan_zero]

theorem dist_entry_eq (coords : List (ℝ × ℝ)) (i j : ℕ)
    (hi : i < coords.length) (hj : j < coords.length) :
    distEntry coords i j =
      rtrunc (haversine (coords.getD i (0, 0)).1 (coords.getD i (0, 0)).2
        (coords.getD j (0, 0)).1 (coords.getD j (0, 0)).2 * 1000) := by
  unfold distEntry dist_matrix
  rw [getD_map_of_lt _ _ _ _ (0, 0) hi, getD_map_of_lt _ _ _ _ (0, 0) hj]

theorem dist_entry_nonneg (coords : List (ℝ × ℝ)) (i j : ℕ)
    (hi : i < coords.length) (hj : j < coords.length) :
    0 ≤ distEntry coords i j := by
  rw [dist_entry_eq coords i j hi hj]
  exact rtrunc_nonneg (mul_nonneg (haversine_nonneg _ _ _ _) (by norm_num))

theorem time_entry_eq (coords : List (ℝ × ℝ)) (i j : ℕ)
    (hi : i < coords.length) (hj : j < coords.length) :
    timeEntry coords i j =
      rtrunc ((distEntry coords i j : ℝ) / 1000 / (speed : ℝ) * 60) := by
  have hrow : (dist_matrix coords).getD i [] =
      coords.map (fun cj => rtrunc (haversine (coords.getD i (0, 0)).1
        (coords.getD i (0, 0)).2 cj.1 cj.2 * 1000)) := by
    unfold dist_matrix
    rw [getD_map_of_lt _ _ _ _ (0, 0) hi]
  unfold timeEntry time_matrix distEntry
  rw [getD_map_of_lt _ _ _ _ [] (by simpa [dist_matrix] using hi), hrow,
    getD_map_of_lt _ _ _ _ 0 (by simpa using hj)]

/-- Claim C1: for every pair of stops i and j, the distance-matrix entry
for (i, j) equals the haversine great-circle distance between their
coordinates (Earth radius 6371 km), converted to meters, truncated (not
rounded) to an integer. Coordinates are modelled as real numbers, so every
coordinate is finite. -/
theorem C1_dist_entry_is_truncated_haversine (coords : List (ℝ × ℝ)) (i j : ℕ)
    (hi : i < coords.length) (hj : j < coords.length) :
    distEntry coords i j =
      rtrunc (haversine (coords.getD i (0, 0)).1 (coords.getD i (0, 0)).2
        (coords.getD j (0, 0)).1 (coords.getD j (0, 0)).2 * 1000) :=
  dist_entry_eq coords i j hi hj

/-- Witness for C1 at a concrete two-stop input. -/
theorem C1_witness :
    distEntry [((0 : ℝ), (0 : ℝ)), (1, 1)] 0 1 =
      rtrunc (haversine (([((0 : ℝ), (0 : ℝ)), (1, 1)].getD 0 (0, 0)).1)
        (([((0 : ℝ), (0 : ℝ)), (1, 1)].getD 0 (0, 0)).2)
        (([((0 : ℝ), (0 : ℝ)), (1, 1)].getD 1 (0, 0)).1)
        (([((0 : ℝ), (0 : ℝ)), (1, 1)].getD 1 (0, 0)).2) * 1000) :=
  C1_dist_entry_is_truncated_haversine _ 0 1 (by decide) (by decide)

/-- Claim C2: every travel-time-matrix entry equals the distance-matrix
entry converted to kilometres, divided by the constant speed in km/h,
multiplied by 60 and truncated to integer minutes; and every entry is a
lower bound on the un-truncated travel time. -/
theorem C2_time_entry_is_truncated_minutes (coords : List (ℝ × ℝ)) (i j : ℕ)
    (hi : i < coords.length) (hj : j < coords.length) :
    timeEntry coords i j =
      rtrunc ((distEntry coords i j : ℝ) / 1000 / (speed : ℝ) * 60) ∧
    (timeEntry coords i j : ℝ) ≤
      (distEntry coords i j : ℝ) / 1000 / (speed : ℝ) * 60 := by
  have heq := time_entry_eq coords i j hi hj
  refine ⟨heq, ?_⟩
  have hd : (0 : ℝ) ≤ (distEntry coords i j : ℝ) := by
    exact_mod_cast dist_entry_nonneg coords i j hi hj
  have hx : (0 : ℝ) ≤ (distEntry coords i j : ℝ) / 1000 / (speed : ℝ) * 60 := by
    have : (0 : ℝ) < (speed : ℝ) := by norm_num [speed]
    positivity
  rw [heq]
  exact rtrunc_le hx

/-- Witness for C2 at a concrete two-stop input. -/
theorem C2_witness :
    timeEntry [((0 : ℝ), (0 : ℝ)), (1, 1)] 0 1 =
      rtrunc ((distEntry [((0 : ℝ), (0 : ℝ)), (1, 1)] 0 1 : ℝ) / 1000 /
        (speed : ℝ) * 60) ∧
    (timeEntry [((0 : ℝ), (0 : ℝ)), (1, 1)] 0 1 : ℝ) ≤
      (distEntry [((0 : ℝ), (0 : ℝ)), (1, 1)] 0 1 : ℝ) / 1000 /
        (speed : ℝ) * 60 :=
  C2_time_entry_is_truncated_minutes _ 0 1 (by decide) (by decide)

/-- Claim C3: for every list of stop coordinates the built distance matrix
is symmetric, entry (i, j) equals entry (j, i), and every diagonal entry
(i, i) is 0. -/
theorem C3_dist_matrix_symm_diag_zero (coords : List (ℝ × ℝ)) (i j : ℕ)
    (hi : i < coords.length) (hj : j < coords.length) :
    distEntry coords i j = distEntry coords j i ∧ distEntry coords i i = 0 := by
  constructor
  · rw [dist_entry_eq coords i j hi hj, dist_entry_eq coords j i hj hi,
      haversine_symm]
  · rw [dist_entry_eq coords i i hi hi, haversine_self]
    simp [rtrunc]

/-- Witness for C3 at a concrete two-stop input. -/
theorem C3_witness :
    distEntry [((0 : ℝ), (0 : ℝ)), (1, 1)] 0 1 =
      distEntry [((0 : ℝ), (0 : ℝ)), (1, 1)] 1 0 ∧
    distEntry [((0 : ℝ), (0 : ℝ)), (1, 1)] 0 0 = 0 :=
  C3_dist_matrix_symm_diag_zero _ 0 1 (by decide) (by decide)

theorem prefixLoad_succ (demand : ℕ → ℤ) (route : List ℕ) (k : ℕ)
    (hk : k < route.length) :
    prefixLoad demand route (k + 1) =
      prefixLoad demand route k + demand (route.getD k 0) := by
  unfold prefixLoad
  rw [List.getD_eq_getElem _ _ hk, List.take_succ, List.getElem?_eq_getElem hk,
    Option.toList_some, List.map_append, List.sum_append, List.map_singleton,
    List.sum_singleton]

theorem cumul_eq_prefixLoad (demand : ℕ → ℤ) (route : List ℕ)
    (cumul : ℕ → ℤ) (h0 : cumul 0 = 0)
    (hstep : ∀ k, k < route.length →
      cumul (k + 1) = cumul k + demand (route.getD k 0)) :
    ∀ k, k ≤ route.length → cumul k = prefixLoad demand route k := by
  intro k
  induction k with
  | zero => intro _; simp [prefixLoad, h0]
  | succ k ih =>
    intro hk
    have hk2 : k < route.length := Nat.lt_of_succ_le hk
    rw [hstep k hk2, ih (Nat.le_of_lt hk2), prefixLoad_succ demand route k hk2]

theorem prefixLoad_le_of_capacityOK (demand : ℕ → ℤ) (cap : ℤ)
    (route : List ℕ) (h : CapacityOK demand cap route) :
    ∀ k, k ≤ route.length → prefixLoad demand route k ≤ cap := by
  obtain ⟨cumul, h0, hstep, hbox⟩ := h
  intro k hk
  rw [← cumul_eq_prefixLoad demand route cumul h0 hstep k hk]
  exact (hbox k hk).2

theorem demandOf_zero (n : ℕ) : demandOf n 0 = 0 := rfl

theorem demandOf_pos (n i : ℕ) (h1 : 1 ≤ i) (h2 : i < n) : demandOf n i = 1 := by
  obtain ⟨k, rfl⟩ : ∃ k, i = k + 1 := ⟨i - 1, (Nat.succ_pred_eq_of_pos h1).symm⟩
  have hk : k < n - 1 := by omega
  unfold demandOf demands_list
  rw [List.getD_cons_succ, List.getD_eq_getElem _ _ (by simpa using hk),
    List.getElem_replicate]

theorem sum_demand_eq_nondepot_count (n : ℕ) (route : List ℕ)
    (hmem : ∀ x ∈ route, x < n) :
    (route.map (demandOf n)).sum = ((route.filter (fun x => x != 0)).length : ℤ) := by
  induction route with
  | nil => simp
  | cons x xs ih =>
    have hx : x < n := hmem x (List.mem_cons_self x xs)
    have hxs : ∀ y ∈ xs, y < n := fun y hy => hmem y (List.mem_cons_of_mem x hy)
    by_cases h0 : x = 0
    · subst h0
      simp [demandOf_zero, ih hxs]
    · have hd : demandOf n x = 1 :=
        demandOf_pos n x (Nat.one_le_iff_ne_zero.mpr h0) hx
      have hb : (x != 0) = true := by simpa using h0
      simp only [List.map_cons, List.sum_cons, ih hxs, hd, List.filter_cons,
        hb, if_true, List.length_cons]
      push_cast
      ring

/-- Claim C4: every extracted vehicle route begins and ends with the depot
(stop 0), including when the vehicle serves no stops. The hypothesis is
the property of RoutingIndexManager(n, num_vehicles, 0): the Start index
of every vehicle maps back to node 0. -/
theorem C4_route_starts_ends_depot (s : RoutingSol) (fuel v : ℕ)
    (h : s.indexToNode (s.start v) = 0) :
    (extractRoute s fuel v).head? = some 0 ∧
      (extractRoute s fuel v).getLast? = some 0 := by
  constructor
  · unfold extractRoute
    cases fuel with
    | zero => simp [routeLoop]
    | succ f =>
      unfold routeLoop
      by_cases he : s.isEnd (s.start v) <;> simp [he, h]
  · exact List.getLast?_concat _

/-- Witness for C4: a concrete one-index solver assignment. -/
theorem C4_witness :
    (extractRoute ⟨fun _ => true, fun _ => 0, fun i => i, fun v => v⟩ 1 0).head? =
      some 0 ∧
    (extractRoute ⟨fun _ => true, fun _ => 0, fun i => i, fun v => v⟩ 1 0).getLast? =
      some 0 :=
  C4_route_starts_ends_depot _ 1 0 rfl

/-- Claim C5: in every produced solution, for every route and every prefix
of that route, the sum of the demands of the stops in the prefix is at
most the vehicle's capacity. A produced route is one whose capacity
dimension (as wired in the source: demands, slack 0, capacity 3 per
vehicle) is satisfied by the solver assignment. -/
theorem C5_prefix_load_le_capacity (n : ℕ) (route : List ℕ)
    (h : CapacityOK (demandOf n) vehicle_capacity route) :
    ∀ k, k ≤ route.length →
      prefixLoad (demandOf n) route k ≤ vehicle_capacity :=
  prefixLoad_le_of_capacityOK (demandOf n) vehicle_capacity route h

/-- Witness for C5: a concrete route [0, 1, 0] of a two-stop instance. -/
theorem C5_witness :
    prefixLoad (demandOf 2) [0, 1, 0] 3 ≤ vehicle_capacity :=
  C5_prefix_load_le_capacity 2 [0, 1, 0]
    ⟨fun k => if k ≤ 1 then 0 else 1, by decide, by decide, by decide⟩
    3 (by decide)

/-- Claim C10: the program assigns demand 0 to the depot and demand 1 to
every other stop, regardless of the input data; consequently a route whose
capacity dimension is satisfied visits at most vehicle_capacity (= 3)
non-depot stops. -/
theorem C10_unit_demands_bound_stops (n : ℕ) (route : List ℕ) :
    (demandOf n 0 = 0 ∧ ∀ i, 1 ≤ i → i < n → demandOf n i = 1) ∧
    (CapacityOK (demandOf n) vehicle_capacity route → (∀ x ∈ route, x < n) →
      ((route.filter (fun x => x != 0)).length : ℤ) ≤ vehicle_capacity) := by
  refine ⟨⟨demandOf_zero n, fun i h1 h2 => demandOf_pos n i h1 h2⟩, ?_⟩
  intro hcap hmem
  have hfull := prefixLoad_le_of_capacityOK (demandOf n) vehicle_capacity route
    hcap route.length le_rfl
  unfold prefixLoad at hfull
  rw [List.take_length, sum_demand_eq_nondepot_count n route hmem] at hfull
  exact hfull

/-- Witness for C10: the two-stop instance with route [0, 1, 0]. -/
theorem C10_witness :
    demandOf 2 1 = 1 ∧
      ((([0, 1, 0] : List ℕ).filter (fun x => x != 0)).length : ℤ) ≤
        vehicle_capacity :=
  ⟨(C10_unit_demands_bound_stops 2 [0, 1, 0]).1.2 1 (by decide) (by decide),
    (C10_unit_demands_bound_stops 2 [0, 1, 0]).2
      ⟨fun k => if k ≤ 1 then 0 else 1, by decide, by decide, by decide⟩
      (by decide)⟩

theorem timeChain_step (time : ℕ → ℕ → ℤ) :
    ∀ (route : List ℕ) (arr : List ℤ), timeChain time route arr →
      ∀ m, m + 1 < route.length → m + 1 < arr.length →
        arr.getD m 0 + time (route.getD m 0) (route.getD (m + 1) 0) ≤
          arr.getD (m + 1) 0 := by
  intro route
  induction route with
  | nil => intro arr _ m hm _; simp at hm
  | cons u rest ih =>
    intro arr hchain m hm1 hm2
    cases rest with
    | nil => simp at hm1
    | cons v rs =>
      cases arr with
      | nil => simp at hm2
      | cons a arr2 =>
        cases arr2 with
        | nil => simp at hm2
        | cons b bs =>
          obtain ⟨h1, _, h3⟩ := hchain
          cases m with
          | zero => simpa using h1
          | succ m2 =>
            have hrec := ih (b :: bs) h3 m2 (by simpa using hm1)
              (by simpa using hm2)
            simpa using hrec

theorem no_solution_of_unreachable (n : ℕ) (time : ℕ → ℕ → ℤ) (s : ℕ)
    (h1 : 1 ≤ s) (h2 : s < n) (h7 : s < 7)
    (hbad : ∀ u, (time_windows.getD s (0, 0)).2 < time u s)
    (sol : FeasibleSolution n time) : False := by
  obtain ⟨r, hr, hsr⟩ := sol.cover s h1 h2
  obtain ⟨ri, hri, hreq⟩ := List.mem_iff_getElem.mp hr
  have htOK := sol.timeOK ri hri
  have hgetr : sol.routes.getD ri [] = r := by
    rw [List.getD_eq_getElem _ _ hri, hreq]
  rw [hgetr] at htOK
  obtain ⟨hlen, hchain, hhor, hwin⟩ := htOK
  obtain ⟨k, hk, hks⟩ := List.mem_iff_getElem.mp hsr
  have hhead := (sol.depotEnds r hr).1
  obtain ⟨t, rfl⟩ : ∃ t, r = 0 :: t := by
    cases r with
    | nil => simp at hhead
    | cons x t =>
      simp only [List.head?_cons, Option.some.injEq] at hhead
      exact ⟨t, by rw [hhead]⟩
  have hk0 : k ≠ 0 := by
    intro h0
    subst h0
    simp at hks
    omega
  obtain ⟨m, rfl⟩ : ∃ m, k = m + 1 :=
    ⟨k - 1, (Nat.succ_pred_eq_of_pos (Nat.pos_of_ne_zero hk0)).symm⟩
  have hstep := timeChain_step time (0 :: t) (sol.arrivals.getD ri [])
    hchain m hk (by rw [hlen]; exact hk)
  have hrk : (0 :: t).getD (m + 1) 0 = s := by
    rw [List.getD_eq_getElem _ _ hk, hks]
  rw [hrk] at hstep
  have hm_arr : m < (sol.arrivals.getD ri []).length := by rw [hlen]; omega
  have hmem : (sol.arrivals.getD ri []).getD m 0 ∈ sol.arrivals.getD ri [] := by
    rw [List.getD_eq_getElem _ _ hm_arr]
    exact List.getElem_mem hm_arr
  have h0a := (hhor _ hmem).1
  have hwin2 := hwin (m + 1) hk (by rw [hrk]; exact h7)
  rw [hrk] at hwin2
  have hba := hbad ((0 :: t).getD m 0)
  have hup := hwin2.2
  omega

/-- Claim C6 (amended): the model wired by the source registers no
disjunctions, so every stop must be visited; when some stop cannot be
feasibly served — here, a stop whose hard-coded window end is smaller than
the travel time to it from every possible predecessor — the model admits
no solution at all, so the solve produces no solution rather than a
partial solution with that stop reported as unassigned. -/
theorem C6_unservable_stop_kills_solution (n : ℕ) (time : ℕ → ℕ → ℤ) (s : ℕ)
    (h1 : 1 ≤ s) (h2 : s < n) (h7 : s < 7)
    (hbad : ∀ u, (time_windows.getD s (0, 0)).2 < time u s) :
    IsEmpty (FeasibleSolution n time) :=
  ⟨fun sol => no_solution_of_unreachable n time s h1 h2 h7 hbad sol⟩

/-- Witness for C6: the seven-stop instance whose stop 1 takes 1000
minutes to reach while its window closes at 200. -/
theorem C6_witness : IsEmpty (FeasibleSolution 7 badTime) :=
  C6_unservable_stop_kills_solution 7 badTime 1 (by decide) (by decide)
    (by decide) (fun u => by norm_num [badTime, time_windows])

/-- Counterexample for C6 as stated: on the concrete seven-stop instance
whose stop 1 closes at 200 but takes 1000 minutes to reach from any
predecessor, the claim's trigger holds, yet no assignment satisfying the
wired model exists at all — so the solve cannot return a partial solution
reporting stop 1 as unassigned; the model has no mechanism for dropping a
stop. -/
theorem C6_counterexample :
    (time_windows.getD 1 (0, 0)).2 < badTime 0 1 ∧
      IsEmpty (FeasibleSolution 7 badTime) := by
  constructor
  · norm_num [badTime, time_windows]
  · exact ⟨fun sol => no_solution_of_unreachable 7 badTime 1 (by decide)
      (by decide) (by decide) (fun u => by norm_num [badTime, time_windows]) sol⟩

/-- Counterexample for C7 as stated: the empty input has fewer than 1 stop
(no depot), yet the front end does not fail with InvalidInput — it
produces empty matrices and the one-entry demand list, and the program
proceeds toward the solve. -/
theorem C7_counterexample :
    ([] : List (ℝ × ℝ)).length < 1 ∧
      front_end [] = Except.ok ([], [], [0]) := by
  constructor
  · decide
  · rfl

/-- Claim C7 (amended): the program performs no input validation: the
front end succeeds on every input, including zero stops, and never
surfaces an InvalidInput error; capacity and speed are hard-coded positive
constants (3 and 40) rather than validated inputs. -/
theorem C7_no_input_validation :
    (∀ coords, ∃ v, front_end coords = Except.ok v) ∧
      vehicle_capacity = 3 ∧ speed = 40 :=
  ⟨fun _ => ⟨_, rfl⟩, rfl, rfl⟩

/-- Claim C8: the time-window list is a fixed 7-entry constant independent
of the input; the wiring loop references exactly the node indices 0
through 6, so with more than 7 stops every stop beyond index 6 receives no
window, and with fewer than 7 stops the loop references node indices at or
beyond the model's node range. -/
theorem C8_fixed_window_wiring :
    time_windows.length = 7 ∧
    (∀ i, i ∈ wiredNodes ↔ i < 7) ∧
    (∀ j, 7 ≤ j → j ∉ wiredNodes) ∧
    (∀ n, n < 7 → ∃ i ∈ wiredNodes, n ≤ i) := by
  refine ⟨rfl, ?_, ?_, ?_⟩
  · intro i
    simp [wiredNodes, time_windows]
  · intro j hj
    simp [wiredNodes, time_windows]
    omega
  · intro n hn
    exact ⟨6, by simp [wiredNodes, time_windows], by omega⟩

/-- Witness for C8: node 6 is wired, node 10 is not, and a four-stop input
still makes the loop reference node 6, which is outside its node range. -/
theorem C8_witness :
    (6 ∈ wiredNodes ↔ 6 < 7) ∧ (10 ∉ wiredNodes) ∧
      (∃ i ∈ wiredNodes, 4 ≤ i) :=
  ⟨C8_fixed_window_wiring.2.1 6, C8_fixed_window_wiring.2.2.1 10 (by decide),
    C8_fixed_window_wiring.2.2.2 4 (by decide)⟩

end RouteOpt
